import Mathlib

/-!
Verification development for the document-to-vector workflow backend
(src/backend/server.py).  The Python source is shallowly embedded:

* pure functions of the source become Lean functions over the same data;
* Python float arithmetic is modelled with exact rationals and reals;
* `random.*` draws and `uuid4` id generation are passed in as explicit
  function parameters (the spec declares these values to be simulated
  signals that need not be reproducible);
* MongoDB documents are modelled as association lists of BSON-like
  values and the relevant update-operator semantics is made explicit;
* the async orchestrator `process_workflow_enhanced` is modelled as the
  sequence of execution-record updates it performs, indexed by the point
  at which an exception (if any) is raised.
-/

namespace Server

/-- Scalar metadata values (entries of the nested metadata sub-dicts such
as `font_info`, `table_info`, `image_info`, `coordinates`). -/
inductive SVal where
  | n (k : Nat)
  | q (x : ℚ)
  | s (v : String)
  | b (v : Bool)
deriving DecidableEq, Repr

/-- Metadata values stored in the `metadata` dict of an element or chunk:
naturals, rationals, strings, booleans, string lists, nat lists and flat
sub-dicts (Python `Dict[str, Any]` restricted to the shapes the source
actually stores). -/
inductive MVal where
  | n (k : Nat)
  | q (x : ℚ)
  | s (v : String)
  | b (v : Bool)
  | sl (l : List String)
  | nl (l : List Nat)
  | m (d : List (String × SVal))
deriving DecidableEq, Repr

/-- Set a key of a metadata dict, replacing any previous binding
(Python `d[k] = v`). -/
def msetKV (d : List (String × MVal)) (k : String) (v : MVal) :
    List (String × MVal) :=
  d.filter (fun p => !(p.1 == k)) ++ [(k, v)]

/-- `DocumentElement` of server.py: id, type tag, text, metadata dict,
optional coordinates dict, optional confidence, optional original text.
Coordinate dicts are kept as association lists so that Python dict
truthiness (`None` and `{}` are falsy) and `.get(key, 0)` are expressible. -/
structure DocumentElement where
  id : String
  type : String
  text : String
  metadata : List (String × MVal)
  coordinates : Option (List (String × ℚ)) := none
  confidence : Option ℚ := none
  original_text : Option String := none
deriving DecidableEq, Repr

/-- `DocumentChunk` of server.py.  The `embedding` field is only ever
filled by a separate database update, never by the chunker. -/
structure DocumentChunk where
  id : String
  text : String
  metadata : List (String × MVal)
  source_elements : List String
  chunk_index : Nat
  tokens : Nat
  embedding : Option (List ℚ) := none
  is_edited : Bool := false
  edit_history : List (List (String × MVal)) := []
deriving DecidableEq, Repr

/-- `ProcessedDocument` of server.py (`created_at` is the timestamp the
caller supplies for `datetime.utcnow()`). -/
structure ProcessedDocument where
  id : String
  filename : String
  file_path : String
  processing_strategy : String
  elements : List DocumentElement
  metadata : List (String × MVal)
  created_at : String
deriving DecidableEq, Repr

/-- `MetadataExtractionConfig` of server.py with its defaults. -/
structure MetadataExtractionConfig where
  extract_tables : Bool := true
  extract_images : Bool := true
  extract_headers_footers : Bool := true
  extract_page_numbers : Bool := true
  extract_font_info : Bool := true
  extract_language : Bool := true
  merge_similar : Bool := true
  confidence_threshold : ℚ := 4/5
deriving DecidableEq, Repr

/-! ## merge_similar_elements (server.py lines 299-344) -/

/-- Python dict truthiness of a coordinates value: `None` and the empty
dict are falsy, a non-empty dict is truthy. -/
def coordsTruthy : Option (List (String × ℚ)) → Bool
  | none => false
  | some d => !d.isEmpty

/-- `element.coordinates.get(key, 0)` (only evaluated by the source when
the coordinates dict is truthy; total here with the same default). -/
def coordGet (e : DocumentElement) (key : String) : ℚ :=
  match e.coordinates with
  | none => 0
  | some d => (d.lookup key).getD 0

/-- The similarity test of the inner loop of `merge_similar_elements`:
same type tag, both coordinate dicts truthy, origins differing by less
than 50 in x and less than 30 in y. -/
def isSimilar (e other : DocumentElement) : Bool :=
  e.type == other.type &&
  coordsTruthy e.coordinates && coordsTruthy other.coordinates &&
  decide (|coordGet e "x" - coordGet other "x"| < 50) &&
  decide (|coordGet e "y" - coordGet other "y"| < 30)

/-- The grouping performed by the two nested loops of
`merge_similar_elements`: the first unprocessed element anchors a group
consisting of itself and every later unprocessed element similar to the
anchor; grouped elements are marked processed and skipped. -/
def similarGroups : List DocumentElement → List (List DocumentElement)
  | [] => []
  | e :: rest =>
    (e :: rest.filter (isSimilar e)) ::
      similarGroups (rest.filter (fun x => !(isSimilar e x)))
termination_by l => l.length
decreasing_by
  simp only [List.length_cons]
  exact Nat.lt_succ_of_le (List.length_filter_le _ _)

/-- Python truthiness of `elem.confidence`: `None` and `0.0` are falsy. -/
def truthyConf (e : DocumentElement) : Bool :=
  match e.confidence with
  | none => false
  | some c => decide (c ≠ 0)

/-- `[elem.confidence for elem in similar_elements if elem.confidence]`. -/
def truthyConfs (g : List DocumentElement) : List ℚ :=
  g.filterMap (fun e =>
    match e.confidence with
    | none => none
    | some c => if c ≠ 0 then some c else none)

/-- Python `min` over a list: error on the empty list, fold otherwise. -/
def listMinQ : List ℚ → Option ℚ
  | [] => none
  | c :: cs => some (cs.foldl min c)

/-- Construction of the merged element for one group of two or more
similar elements (`mergedId` models the fresh `uuid4` of the new
`DocumentElement`).  Raises (returns `.error`) exactly when the filtered
confidence list is empty, as Python `min([])` does. -/
def mergeGroup (mergedId : String) (g : List DocumentElement) :
    Except String DocumentElement :=
  match g with
  | [] => .error "empty group"
  | anchor :: _ =>
    let mergedText := " ".intercalate (g.map (fun e => e.text))
    let mergedMeta :=
      msetKV (msetKV anchor.metadata "merged_from" (.sl (g.map (fun e => e.id))))
        "merge_count" (.n g.length)
    match listMinQ (truthyConfs g) with
    | none => .error "min() arg is an empty sequence"
    | some c =>
      .ok { id := mergedId
            type := anchor.type
            text := mergedText
            metadata := mergedMeta
            coordinates := anchor.coordinates
            confidence := some c
            original_text := some mergedText }

/-- Processes the groups in anchor order: a group of two or more is
merged (consuming one fresh id), a singleton passes through unchanged;
the first raising group aborts the whole pass, as the Python exception
does. -/
def mergeGroupsGo (idS : Nat → String) (k : Nat) :
    List (List DocumentElement) → Except String (List DocumentElement)
  | [] => .ok []
  | g :: rest =>
    match g with
    | [] => .error "empty group"
    | e :: gs =>
      if gs.isEmpty then
        (mergeGroupsGo idS k rest).map (fun l => e :: l)
      else
        match mergeGroup (idS k) g with
        | .error msg => .error msg
        | .ok m => (mergeGroupsGo idS (k + 1) rest).map (fun l => m :: l)

/-- `merge_similar_elements` of server.py.  `idS` supplies the `uuid4`
ids of the merged elements in creation order; the unused
`similarity_threshold` parameter of the source is kept. -/
def merge_similar_elements (idS : Nat → String)
    (elements : List DocumentElement) (_similarity_threshold : ℚ := 4/5) :
    Except String (List DocumentElement) :=
  mergeGroupsGo idS 0 (similarGroups elements)

/-! ## create_intelligent_chunks (server.py lines 412-530) -/

/-- `len(chunk_text.split())`: Python `str.split()` splits on whitespace
runs and discards empty pieces. -/
def countTokens (s : String) : Nat :=
  ((s.split fun c => c.isWhitespace).filter (fun t => !t.isEmpty)).length

/-- `element.metadata.get("page_number", 1)` (the source only ever
stores integral page numbers). -/
def pageOf (e : DocumentElement) : Nat :=
  match e.metadata.lookup "page_number" with
  | some (.n k) => k
  | _ => 1

/-- `elem.confidence or 0`. -/
def confOrZero (e : DocumentElement) : ℚ :=
  match e.confidence with
  | none => 0
  | some c => c

/-- Chunk flushed inside the `by_title` loop (its metadata carries a
`confidence_avg` entry, unlike the final flush). -/
def mkMidChunk (idS : Nat → String) (group : List DocumentElement)
    (idx : Nat) : DocumentChunk :=
  let chunkText := " ".intercalate (group.map (fun e => e.text))
  { id := idS idx
    text := chunkText
    metadata :=
      [ ("chunk_strategy", .s "by_title")
      , ("source_elements", .sl (group.map (fun e => e.id)))
      , ("element_types", .sl (group.map (fun e => e.type)).eraseDups)
      , ("pages", .nl (group.map pageOf).eraseDups)
      , ("confidence_avg", .q ((group.map confOrZero).sum / group.length)) ]
    source_elements := group.map (fun e => e.id)
    chunk_index := idx
    tokens := countTokens chunkText }

/-- Chunk flushed after the `by_title` loop for the remaining buffer
(no `confidence_avg` entry). -/
def mkFinalChunk (idS : Nat → String) (group : List DocumentElement)
    (idx : Nat) : DocumentChunk :=
  let chunkText := " ".intercalate (group.map (fun e => e.text))
  { id := idS idx
    text := chunkText
    metadata :=
      [ ("chunk_strategy", .s "by_title")
      , ("source_elements", .sl (group.map (fun e => e.id)))
      , ("element_types", .sl (group.map (fun e => e.type)).eraseDups)
      , ("pages", .nl (group.map pageOf).eraseDups) ]
    source_elements := group.map (fun e => e.id)
    chunk_index := idx
    tokens := countTokens chunkText }

/-- The `by_title` accumulation loop: state is the list of flushed
chunks, the current buffer (in order) and the buffer's character count.
An element is appended to the buffer unless it is a Title arriving on a
non-empty buffer or appending it would push the character count over
`chunk_size`, in which case the buffer (if non-empty) is flushed first
and the element starts a new buffer. -/
def byTitleGo (idS : Nat → String) (chunk_size : Nat) :
    List DocumentElement → List DocumentChunk → List DocumentElement →
    Nat → List DocumentChunk × List DocumentElement
  | [], chunks, group, _ => (chunks, group)
  | e :: rest, chunks, group, csize =>
    if (e.type == "Title" && !group.isEmpty) ||
        decide (chunk_size < csize + e.text.length) then
      let chunks' :=
        if group.isEmpty then chunks
        else chunks ++ [mkMidChunk idS group chunks.length]
      byTitleGo idS chunk_size rest chunks' [e] e.text.length
    else
      byTitleGo idS chunk_size rest chunks (group ++ [e])
        (csize + e.text.length)

/-- The flush of any remaining buffer after the `by_title` loop. -/
def byTitleFinish (idS : Nat → String)
    (st : List DocumentChunk × List DocumentElement) : List DocumentChunk :=
  if st.2.isEmpty then st.1
  else st.1 ++ [mkFinalChunk idS st.2 st.1.length]

/-- The `by_title` branch of `create_intelligent_chunks`, including the
final flush of any remaining buffer. -/
def byTitleChunks (idS : Nat → String) (elements : List DocumentElement)
    (chunk_size : Nat) : List DocumentChunk :=
  byTitleFinish idS (byTitleGo idS chunk_size elements [] [] 0)

/-- The `by_page` branch: one chunk per distinct page value in
first-seen order (Python dict insertion order), each collecting the
page's elements in original order. -/
def byPageChunks (idS : Nat → String) (elements : List DocumentElement) :
    List DocumentChunk :=
  ((elements.map pageOf).eraseDups).enum.map (fun kp =>
    let pes := elements.filter (fun e => pageOf e == kp.2)
    let chunkText := " ".intercalate (pes.map (fun e => e.text))
    { id := idS kp.1
      text := chunkText
      metadata :=
        [ ("chunk_strategy", .s "by_page")
        , ("page_number", .n kp.2)
        , ("source_elements", .sl (pes.map (fun e => e.id)))
        , ("element_count", .n pes.length) ]
      source_elements := pes.map (fun e => e.id)
      chunk_index := kp.1
      tokens := countTokens chunkText })

/-- Python `s[-200:]`. -/
def strTakeRight (s : String) (n : Nat) : String :=
  s.drop (s.length - n)

/-- The optional context-merge post-pass: each chunk is rebuilt with the
last 200 characters of the previous chunk's text prepended and the
first 200 characters of the next chunk's text appended (skipping the
missing neighbour at either boundary), token count recomputed, metadata
tagged `context_merged` with a link to the pre-merge chunk id, and a
fresh id drawn from the supply after the `n` ids of the original
chunks. -/
def contextMergePass (idS : Nat → String) (chunks : List DocumentChunk) :
    List DocumentChunk :=
  let n := chunks.length
  chunks.enum.map (fun ic =>
    let i := ic.1
    let c := ic.2
    let withPrev :=
      if 0 < i then
        strTakeRight ((chunks.getD (i - 1) c).text) 200 ++ " " ++ c.text
      else c.text
    let contextText :=
      if i < n - 1 then withPrev ++ " " ++ (chunks.getD (i + 1) c).text.take 200
      else withPrev
    { id := idS (n + i)
      text := contextText
      metadata :=
        msetKV (msetKV c.metadata "context_merged" (.b true))
          "original_chunk_id" (.s c.id)
      source_elements := c.source_elements
      chunk_index := i
      tokens := countTokens contextText })

/-- `create_intelligent_chunks` of server.py.  `idS` supplies the
`uuid4` chunk ids in creation order.  Only the `by_title` and `by_page`
strategies build chunks; any other strategy name falls through both
branches and yields the empty list. -/
def create_intelligent_chunks (idS : Nat → String)
    (elements : List DocumentElement) (chunk_strategy : String)
    (chunk_size : Nat := 1000) (context_merge : Bool := false) :
    List DocumentChunk :=
  let chunks :=
    if chunk_strategy == "by_title" then byTitleChunks idS elements chunk_size
    else if chunk_strategy == "by_page" then byPageChunks idS elements
    else []
  if context_merge && decide (1 < chunks.length) then
    contextMergePass idS chunks
  else chunks

/-! ## Spec-side model of the `by_title` strategy

Written from the specification's words alone (spec.md section 4.4):
accumulate elements into a buffer; flush the buffer into a chunk when
either a Title element arrives while the buffer is non-empty, or
appending the next element would exceed `chunkSize` characters; flush
any remaining buffer at the end; chunk order equals flush order. -/

/-- Character count of a buffer of element texts. -/
def bufferSize (buffer : List String) : Nat :=
  (buffer.map String.length).sum

/-- Spec-described `by_title` loop over (type, text) pairs, returning
the flushed chunk texts in flush order. -/
def byTitleSpecGo (chunkSize : Nat) :
    List (String × String) → List String → List String → List String
  | [], flushed, buffer =>
    flushed ++ (if buffer.isEmpty then [] else [" ".intercalate buffer])
  | (ty, tx) :: rest, flushed, buffer =>
    if (ty == "Title" && !buffer.isEmpty) ||
        decide (chunkSize < bufferSize buffer + tx.length) then
      byTitleSpecGo chunkSize rest
        (flushed ++ (if buffer.isEmpty then [] else [" ".intercalate buffer]))
        [tx]
    else
      byTitleSpecGo chunkSize rest flushed (buffer ++ [tx])

/-- Spec-described `by_title` chunking: the chunk texts obtained from a
list of elements. -/
def byTitleSpec (elements : List DocumentElement) (chunkSize : Nat) :
    List String :=
  byTitleSpecGo chunkSize (elements.map (fun e => (e.type, e.text))) [] []

/-! ## generate_embeddings (server.py lines 532-569)

The source derives each vector from `hashlib.md5(text.encode())`.  MD5
is implemented here over the UTF-8 bytes of the text, with all 32-bit
machine arithmetic expressed on `Nat` modulo `2 ^ 32`. -/

/-- 32-bit left rotation (operand assumed reduced modulo `2 ^ 32`). -/
def rotl32 (x s : Nat) : Nat :=
  (x * 2 ^ s + x / 2 ^ (32 - s)) % 4294967296

/-- Bitwise complement of a 32-bit value. -/
def not32 (x : Nat) : Nat :=
  Nat.xor x 4294967295

/-- The MD5 round function for round `i`. -/
def md5F (i b c d : Nat) : Nat :=
  if i < 16 then Nat.lor (Nat.land b c) (Nat.land (not32 b) d)
  else if i < 32 then Nat.lor (Nat.land d b) (Nat.land (not32 d) c)
  else if i < 48 then Nat.xor b (Nat.xor c d)
  else Nat.xor c (Nat.lor b (not32 d))

/-- The MD5 message-word index for round `i`. -/
def md5G (i : Nat) : Nat :=
  if i < 16 then i
  else if i < 32 then (5 * i + 1) % 16
  else if i < 48 then (3 * i + 5) % 16
  else (7 * i) % 16

/-- The MD5 per-round shift amounts. -/
def md5S : List Nat :=
  [7, 12, 17, 22, 7, 12, 17, 22, 7, 12, 17, 22, 7, 12, 17, 22,
   5, 9, 14, 20, 5, 9, 14, 20, 5, 9, 14, 20, 5, 9, 14, 20,
   4, 11, 16, 23, 4, 11, 16, 23, 4, 11, 16, 23, 4, 11, 16, 23,
   6, 10, 15, 21, 6, 10, 15, 21, 6, 10, 15, 21, 6, 10, 15, 21]

/-- The MD5 sine-derived additive constants. -/
def md5K : List Nat :=
  [0xd76aa478, 0xe8c7b756, 0x242070db, 0xc1bdceee,
   0xf57c0faf, 0x4787c62a, 0xa8304613, 0xfd469501,
   0x698098d8, 0x8b44f7af, 0xffff5bb1, 0x895cd7be,
   0x6b901122, 0xfd987193, 0xa679438e, 0x49b40821,
   0xf61e2562, 0xc040b340, 0x265e5a51, 0xe9b6c7aa,
   0xd62f105d, 0x02441453, 0xd8a1e681, 0xe7d3fbc8,
   0x21e1cde6, 0xc33707d6, 0xf4d50d87, 0x455a14ed,
   0xa9e3e905, 0xfcefa3f8, 0x676f02d9, 0x8d2a4c8a,
   0xfffa3942, 0x8771f681, 0x6d9d6122, 0xfde5380c,
   0xa4beea44, 0x4bdecfa9, 0xf6bb4b60, 0xbebfbc70,
   0x289b7ec6, 0xeaa127fa, 0xd4ef3085, 0x04881d05,
   0xd9d4d039, 0xe6db99e5, 0x1fa27cf8, 0xc4ac5665,
   0xf4292244, 0x432aff97, 0xab9423a7, 0xfc93a039,
   0x655b59c3, 0x8f0ccc92, 0xffeff47d, 0x85845dd1,
   0x6fa87e4f, 0xfe2ce6e0, 0xa3014314, 0x4e0811a1,
   0xf7537e82, 0xbd3af235, 0x2ad7d2bb, 0xeb86d391]

/-- One MD5 round: `(a, b, c, d)` to `(d, b + rotl(...), b, c)`. -/
def md5Round (M : List Nat) (st : Nat × Nat × Nat × Nat) (i : Nat) :
    Nat × Nat × Nat × Nat :=
  let a := st.1
  let b := st.2.1
  let c := st.2.2.1
  let d := st.2.2.2
  let f := (md5F i b c d + a + md5K.getD i 0 + M.getD (md5G i) 0) % 4294967296
  (d, (b + rotl32 f (md5S.getD i 0)) % 4294967296, b, c)

/-- Process one 64-byte block: decode sixteen little-endian 32-bit
words, run the 64 rounds, add the result into the running state. -/
def md5Block (st : Nat × Nat × Nat × Nat) (block : List Nat) :
    Nat × Nat × Nat × Nat :=
  let M := (List.range 16).map (fun j =>
    block.getD (4 * j) 0 + 256 * block.getD (4 * j + 1) 0 +
    65536 * block.getD (4 * j + 2) 0 + 16777216 * block.getD (4 * j + 3) 0)
  let r := (List.range 64).foldl (md5Round M) st
  ((st.1 + r.1) % 4294967296, (st.2.1 + r.2.1) % 4294967296,
   (st.2.2.1 + r.2.2.1) % 4294967296, (st.2.2.2 + r.2.2.2) % 4294967296)

/-- Little-endian 8-byte encoding of a 64-bit value. -/
def le8 (x : Nat) : List Nat :=
  [x % 256, x / 2 ^ 8 % 256, x / 2 ^ 16 % 256, x / 2 ^ 24 % 256,
   x / 2 ^ 32 % 256, x / 2 ^ 40 % 256, x / 2 ^ 48 % 256, x / 2 ^ 56 % 256]

/-- Little-endian 4-byte encoding of a 32-bit value. -/
def le4 (x : Nat) : List Nat :=
  [x % 256, x / 2 ^ 8 % 256, x / 2 ^ 16 % 256, x / 2 ^ 24 % 256]

/-- MD5 padding: a `0x80` byte, zeros up to 56 modulo 64, then the bit
length as a little-endian 64-bit value. -/
def md5Pad (msg : List Nat) : List Nat :=
  msg ++ 128 :: List.replicate ((119 - msg.length % 64) % 64) 0 ++
    le8 (8 * msg.length % 2 ^ 64)

/-- Split a byte list into 64-byte blocks. -/
def toBlocks (l : List Nat) : List (List Nat) :=
  if l.isEmpty then [] else l.take 64 :: toBlocks (l.drop 64)
termination_by l.length
decreasing_by
  rename_i h
  simp only [List.length_drop]
  have hl : l ≠ [] := by simpa [List.isEmpty_iff] using h
  have : 0 < l.length := List.length_pos.mpr hl
  omega

/-- `hashlib.md5(text.encode()).digest()`: the sixteen digest bytes of
the UTF-8 encoding of the text. -/
def md5Bytes (text : String) : List Nat :=
  let msg := text.toUTF8.toList.map (fun b => b.toNat)
  let st := (toBlocks (md5Pad msg)).foldl md5Block
    (0x67452301, 0xefcdab89, 0x98badcfe, 0x10325476)
  le4 st.1 ++ le4 st.2.1 ++ le4 st.2.2.1 ++ le4 st.2.2.2

/-- The hexadecimal digest as nibble values: each digest byte yields its
high then its low nibble, matching `int(hexdigest()[j], 16)`. -/
def md5Nibbles (text : String) : List Nat :=
  (md5Bytes text).flatMap (fun b => [b / 16, b % 16])

/-- Provider-selected dimensionality of `generate_embeddings`. -/
def dimensions (model_type : String) : Nat :=
  if model_type = "openai" then 1536
  else if model_type = "bedrock" then 1024
  else if model_type = "sentence_transformers" then 384
  else 768

/-- The raw (pre-normalization) embedding components:
`(int(text_hash[i % 32], 16) + i) / (16 + dimensions) - 0.5`. -/
def rawEmbedding (nibs : List Nat) (dims : Nat) : List ℚ :=
  (List.range dims).map (fun i =>
    ((nibs.getD (i % nibs.length) 0 : ℚ) + i) / (16 + dims) - 1/2)

/-- Sum of squares of a rational vector. -/
def sumSqQ (v : List ℚ) : ℚ :=
  (v.map (fun x => x ^ 2)).sum

/-- Sum of squares of a real vector (the squared L2 norm). -/
def sumSqR (v : List ℝ) : ℝ :=
  (v.map (fun x => x ^ 2)).sum

open Classical in
/-- The normalization step of `generate_embeddings`: divide by the L2
magnitude when it is positive, keep the raw vector otherwise.  Stated
over the reals because the magnitude is a square root. -/
noncomputable def normalizeVec (v : List ℚ) : List ℝ :=
  if 0 < Real.sqrt (sumSqR (v.map (Rat.cast : ℚ → ℝ))) then
    (v.map (Rat.cast : ℚ → ℝ)).map
      (fun x => x / Real.sqrt (sumSqR (v.map (Rat.cast : ℚ → ℝ))))
  else v.map (Rat.cast : ℚ → ℝ)

/-- `generate_embeddings` of server.py: one deterministic unit vector
per input text, with provider-selected dimensionality.  The source's
`except` branch is unreachable (no statement of the body raises), so it
is not modelled. -/
noncomputable def generate_embeddings (texts : List String)
    (model_type : String) : List (List ℝ) :=
  texts.map (fun t =>
    normalizeVec (rawEmbedding (md5Nibbles t) (dimensions model_type)))

/-! ## extract_text_from_file_with_metadata (server.py lines 161-297)

The file read is modelled by an `Option String` argument (`none` means
`open`/`read` raised); the `random.*` draws and `uuid4` ids of the
success path are supplied by an explicit `ExtractRng` record, and
`datetime.utcnow().isoformat()` by a `nowIso` argument. -/

/-- The simulated signals drawn by the success path of the extractor,
indexed by the ordinal of the content span they belong to. -/
structure ExtractRng where
  confidence : Nat → ℚ
  coordX : Nat → ℚ
  coordY : Nat → ℚ
  coordW : Nat → ℚ
  coordH : Nat → ℚ
  fontFamily : Nat → String
  fontSize : Nat → Nat
  isBold : Nat → Bool
  isItalic : Nat → Bool
  tableRows : Nat → Nat
  tableCols : Nat → Nat
  tableHasHeader : Nat → Bool
  imageW : Nat → Nat
  imageH : Nat → Nat
  imageFormat : Nat → String
  elemId : Nat → String
  docId : String

/-- `Path(file_path).name`. -/
def pathName (p : String) : String :=
  (p.splitOn "/").getLastD p

/-- Presence of a CJK code point among the first `k` characters
(`any('一' <= char <= '鿿' for char in s[:k])`). -/
def hasCJK (s : String) (k : Nat) : Bool :=
  (s.toList.take k).any (fun c =>
    decide (0x4e00 ≤ c.toNat) && decide (c.toNat ≤ 0x9fff))

/-- Per-strategy span granularity (`chunk_size` of the extractor). -/
def strategyChunkSize (strategy : String) : Nat :=
  if strategy = "hi_res" then 800
  else if strategy = "fast" then 1500
  else if strategy = "ocr_only" then 500
  else 1000

/-- Per-strategy element-type rotation. -/
def strategyElementTypes (strategy : String) : List String :=
  if strategy = "hi_res" then
    ["Title", "NarrativeText", "Table", "ListItem", "Header", "Footer"]
  else if strategy = "fast" then ["NarrativeText", "Text"]
  else if strategy = "ocr_only" then ["UncategorizedText", "Text"]
  else ["Title", "NarrativeText", "ListItem", "Table", "Header", "Image"]

/-- `[content[i:i+n] for i in range(0, len(content), n)]` on characters
(empty for `n = 0`, which no strategy produces). -/
def sliceChars (l : List Char) (n : Nat) : List String :=
  if _hn : n = 0 then []
  else if l.isEmpty then []
  else String.mk (l.take n) :: sliceChars (l.drop n) n
termination_by l.length
decreasing_by
  rename_i hne
  simp only [List.length_drop]
  have hl : l ≠ [] := by simpa [List.isEmpty_iff] using hne
  have : 0 < l.length := List.length_pos.mpr hl
  omega

/-- The element built for the `i`-th content span of the success path,
with its metadata dict assembled exactly as in the source (base fields,
then the config-gated `font_info`, `table_info`, `image_info`). -/
def buildElement (file_path strategy : String)
    (cfg : MetadataExtractionConfig) (rng : ExtractRng) (i : Nat)
    (chunk : String) (elementTypes : List String) : DocumentElement :=
  let elementType := elementTypes.getD (i % elementTypes.length) ""
  let coords : List (String × ℚ) :=
    [("x", rng.coordX i), ("y", rng.coordY i),
     ("width", rng.coordW i), ("height", rng.coordH i)]
  let base : List (String × MVal) :=
    [ ("file_path", .s file_path)
    , ("chunk_index", .n i)
    , ("processing_strategy", .s strategy)
    , ("element_type", .s elementType)
    , ("page_number", .n (i / 3 + 1))
    , ("confidence", .q (rng.confidence i))
    , ("language", .s (if hasCJK chunk 100 then "zh" else "en"))
    , ("coordinates", .m (coords.map (fun p => (p.1, SVal.q p.2)))) ]
  let withFont :=
    if cfg.extract_font_info then
      base ++ [("font_info", .m
        [ ("font_family", .s (rng.fontFamily i))
        , ("font_size", .n (rng.fontSize i))
        , ("is_bold", .b (rng.isBold i))
        , ("is_italic", .b (rng.isItalic i)) ])]
    else base
  let withTable :=
    if cfg.extract_tables && (elementType == "Table") then
      withFont ++ [("table_info", .m
        [ ("rows", .n (rng.tableRows i))
        , ("columns", .n (rng.tableCols i))
        , ("has_header", .b (rng.tableHasHeader i)) ])]
    else withFont
  let metadata :=
    if cfg.extract_images && (elementType == "Image") then
      withTable ++ [("image_info", .m
        [ ("width", .n (rng.imageW i))
        , ("height", .n (rng.imageH i))
        , ("format", .s (rng.imageFormat i))
        , ("alt_text", .s ("Image description for element " ++ toString i)) ])]
    else withTable
  { id := rng.elemId i
    type := elementType
    text := chunk
    metadata := metadata
    coordinates := some coords
    confidence := some (rng.confidence i)
    original_text := some chunk }

/-- The single fallback element of the `except` branch. -/
def fallbackElement (file_path strategy : String) (rng : ExtractRng) :
    DocumentElement :=
  { id := rng.elemId 0
    type := "NarrativeText"
    text := "演示内容：基于Unstructured库的" ++ strategy ++ "策略处理文档 " ++
      pathName file_path ++
      "。这展示了企业级文档处理平台如何提取丰富的元数据，包括字体信息、坐标位置、语言检测、表格结构等。系统支持高级可视化功能，前后对比，以及分块编辑能力。"
    metadata :=
      [ ("file_path", .s file_path)
      , ("chunk_index", .n 0)
      , ("processing_strategy", .s strategy)
      , ("element_type", .s "NarrativeText")
      , ("language", .s "zh")
      , ("page_number", .n 1)
      , ("confidence", .q (19/20))
      , ("coordinates", .m
          [("x", .q 50), ("y", .q 100), ("width", .q 400), ("height", .q 50)])
      , ("font_info", .m
          [("font_family", .s "Arial"), ("font_size", .n 12),
           ("is_bold", .b false)]) ]
    coordinates := some [("x", 50), ("y", 100), ("width", 400), ("height", 50)]
    confidence := some (19/20)
    original_text := none }

/-- `extract_text_from_file_with_metadata` of server.py.  The function
is total: a failed file read (`readResult = none`) lands in the
`except` branch, which returns the demo-mode fallback document instead
of propagating the error. -/
def extract_text_from_file_with_metadata (file_path : String)
    (readResult : Option String) (strategy : String := "auto")
    (metadata_config : Option MetadataExtractionConfig := none)
    (rng : ExtractRng) (nowIso : String := "") :
    ProcessedDocument :=
  match readResult with
  | some content =>
    let cfg := metadata_config.getD {}
    let chunkSize := strategyChunkSize strategy
    let elementTypes := strategyElementTypes strategy
    let chunks := sliceChars content.toList chunkSize
    let elements := chunks.enum.map (fun ic =>
      buildElement file_path strategy cfg rng ic.1 ic.2 elementTypes)
    { id := rng.docId
      filename := pathName file_path
      file_path := file_path
      processing_strategy := strategy
      elements := elements
      metadata :=
        [ ("original_filename", .s (pathName file_path))
        , ("processing_strategy", .s strategy)
        , ("total_elements", .n elements.length)
        , ("processing_timestamp", .s nowIso)
        , ("file_size", .n content.length)
        , ("estimated_pages", .n (chunks.length / 3 + 1))
        , ("language_detected", .s (if hasCJK content 1000 then "zh" else "en")) ]
      created_at := nowIso }
  | none =>
    { id := rng.docId
      filename := pathName file_path
      file_path := file_path
      processing_strategy := strategy
      elements := [fallbackElement file_path strategy rng]
      metadata :=
        [ ("original_filename", .s (pathName file_path))
        , ("processing_strategy", .s strategy)
        , ("total_elements", .n 1)
        , ("processing_timestamp", .s nowIso)
        , ("demo_mode", .b true) ]
      created_at := nowIso }

/-! ## process_workflow_enhanced (server.py lines 951-1149)

The orchestrator is modelled by the sequence of `$set` updates it
performs on the execution record.  A run either performs all five
updates of the success path, or an exception interrupts it after `k`
of them (`k < 5`; nothing of the `try` block follows the fifth update,
so an exception can no longer occur once it has been applied) and the
`except` handler performs the failure update instead. -/

/-- Execution status strings of `WorkflowExecution`. -/
inductive ExecStatus where
  | pending
  | running
  | completed
  | failed
deriving DecidableEq, Repr

/-- The execution record fields touched by the orchestrator
(`results` is kept abstract as a metadata value). -/
structure ExecRecord where
  status : ExecStatus
  progress : Nat
  results : Option MVal
  error_message : Option String
  completed_at : Option String
deriving DecidableEq, Repr

/-- The record as created by `execute_workflow` (model defaults of
`WorkflowExecution`). -/
def initExecRecord : ExecRecord :=
  { status := .pending, progress := 0, results := none,
    error_message := none, completed_at := none }

/-- One `$set` update on the execution record: each present field is
overwritten, absent fields are untouched. -/
structure ExecUpdate where
  status : Option ExecStatus := none
  progress : Option Nat := none
  results : Option MVal := none
  error_message : Option String := none
  completed_at : Option String := none

/-- Apply a `$set` update to the execution record. -/
def applyExecUpdate (r : ExecRecord) (u : ExecUpdate) : ExecRecord :=
  { status := u.status.getD r.status
    progress := u.progress.getD r.progress
    results := match u.results with
      | some v => some v
      | none => r.results
    error_message := match u.error_message with
      | some v => some v
      | none => r.error_message
    completed_at := match u.completed_at with
      | some v => some v
      | none => r.completed_at }

/-- The five updates of the success path of
`process_workflow_enhanced`, in program order: running at 5 percent,
then the 25, 60 and 80 percent stage milestones, then the completion
update that atomically sets completed, 100, the aggregated results and
the completion timestamp. -/
def successUpdates (results : MVal) (completedAt : String) :
    List ExecUpdate :=
  [ { status := some .running, progress := some 5 }
  , { progress := some 25 }
  , { progress := some 60 }
  , { progress := some 80 }
  , { status := some .completed, progress := some 100,
      results := some results, completed_at := some completedAt } ]

/-- The single update of the `except` handler: failed status, the
exception's message verbatim, a completion timestamp, and nothing
else. -/
def failUpdate (msg completedAt : String) : ExecUpdate :=
  { status := some .failed, error_message := some msg,
    completed_at := some completedAt }

/-- The update sequence of one run.  `outcome = none` is a run with no
exception; `outcome = some k` is a run whose `try` block raises after
`k` of the success-path updates, landing in the `except` handler. -/
def runUpdates (outcome : Option (Fin 5)) (results : MVal)
    (completedAt : String) (msg : String) : List ExecUpdate :=
  match outcome with
  | none => successUpdates results completedAt
  | some k => (successUpdates results completedAt).take k ++
      [failUpdate msg completedAt]

/-- All states the execution record passes through during a run,
starting from the record created by `execute_workflow`. -/
def execTrace (outcome : Option (Fin 5)) (results : MVal)
    (completedAt : String) (msg : String) : List ExecRecord :=
  (runUpdates outcome results completedAt msg).scanl applyExecUpdate
    initExecRecord

/-- The execution record at the end of a run. -/
def finalExecRecord (outcome : Option (Fin 5)) (results : MVal)
    (completedAt : String) (msg : String) : ExecRecord :=
  (runUpdates outcome results completedAt msg).foldl applyExecUpdate
    initExecRecord

/-- Decidable check that a list of progress values never decreases. -/
def nondecreasing : List Nat → Bool
  | [] => true
  | [_] => true
  | a :: b :: t => decide (a ≤ b) && nondecreasing (b :: t)

/-! ## edit_chunk (server.py lines 747-788)

Chunks live in MongoDB; documents are modelled as association lists of
BSON values.  The relevant MongoDB rule is made explicit: a `$set`
update document may not contain a dollar-prefixed field name — such an
update is rejected by the server and the stored document is left
unchanged. -/

/-- BSON-like values of the chunk store. -/
inductive BVal where
  | str (s : String)
  | boolv (b : Bool)
  | num (q : ℚ)
  | null
  | arr (l : List BVal)
  | doc (d : List (String × BVal))
deriving Repr

/-- A stored document and a collection of them. -/
abbrev BDoc := List (String × BVal)

/-- Overwrite one top-level field of a stored document. -/
def bsetField (d : BDoc) (k : String) (v : BVal) : BDoc :=
  d.filter (fun p => !(p.1 == k)) ++ [(k, v)]

/-- Whether a field name is dollar-prefixed. -/
def dollarPrefixed (s : String) : Bool :=
  match s.toList with
  | [] => false
  | c :: _ => c == '$'

/-- MongoDB semantics of `update_one(filter, set-update)`: the update is
rejected when any field name of the `$set` document is dollar-prefixed
(the `$push` operator nested inside `$set` is such a field name);
otherwise every listed field is overwritten. -/
def mongoSet (d : BDoc) (upd : List (String × BVal)) : Except String BDoc :=
  if upd.all (fun p => !dollarPrefixed p.1) then
    .ok (upd.foldl (fun acc p => bsetField acc p.1 p.2) d)
  else
    .error "dollar-prefixed field name in $set"

/-- Look up the value of a string field of a stored document. -/
def bStr (d : BDoc) (k : String) : String :=
  match d.lookup k with
  | some (.str s) => s
  | _ => ""

/-- The edit-history entry `edit_chunk` builds. -/
def editEntry (oldText newText : String) (reason : Option String)
    (now : String) : BVal :=
  .doc [ ("timestamp", .str now)
       , ("original_text", .str oldText)
       , ("new_text", .str newText)
       , ("edit_reason", match reason with
            | some r => .str r
            | none => .null)
       , ("editor", .str "user") ]

/-- `edit_chunk` of server.py over a chunk collection: find the chunk
by id (404 error when absent), build the edit entry, and issue the
update whose `$set` document carries `text`, `is_edited` and —
erroneously nested inside `$set` — the `$push` of the history entry.
Returns the resulting collection together with the HTTP-level outcome;
on any error the collection is unchanged. -/
def edit_chunk (chunks : List BDoc) (chunk_id new_text : String)
    (edit_reason : Option String) (now : String) :
    Except String BDoc × List BDoc :=
  match chunks.find? (fun d => bStr d "id" == chunk_id) with
  | none => (.error "404 Chunk not found", chunks)
  | some chunk =>
    let entry := editEntry (bStr chunk "text") new_text edit_reason now
    let update_data : List (String × BVal) :=
      [ ("text", .str new_text)
      , ("is_edited", .boolv true)
      , ("$push", .doc [("edit_history", entry)]) ]
    match mongoSet chunk update_data with
    | .error e => (.error ("500 Error editing chunk: " ++ e), chunks)
    | .ok chunk' =>
      (.ok chunk',
       chunks.map (fun d => if bStr d "id" == chunk_id then chunk' else d))

/-- Boolean success test for a fallible computation. -/
def isOkE {α : Type} : Except String α → Bool
  | .ok _ => true
  | .error _ => false

/-! ## Concrete fixtures used by the claim instances -/

/-- Title element with text "A" (spec.md section 8, `by_title` example). -/
def elTitleA : DocumentElement :=
  { id := "a1", type := "Title", text := "A", metadata := [] }

/-- Text element with text "B". -/
def elTextB : DocumentElement :=
  { id := "b1", type := "Text", text := "B", metadata := [] }

/-- Title element with text "C". -/
def elTitleC : DocumentElement :=
  { id := "c1", type := "Title", text := "C", metadata := [] }

/-- Text element with text "D". -/
def elTextD : DocumentElement :=
  { id := "d1", type := "Text", text := "D", metadata := [] }

/-- An element whose text has un-normalized whitespace and fewer than
10 characters. -/
def elShort : DocumentElement :=
  { id := "s1", type := "NarrativeText", text := "a  b", metadata := [],
    confidence := some (9/10) }

/-- A non-empty element for the `fixed_size` counterexample. -/
def elFixed : DocumentElement :=
  { id := "f1", type := "NarrativeText", text := "hello world",
    metadata := [] }

/-- Element at origin (100, 200) (spec.md section 8 merge example). -/
def elA : DocumentElement :=
  { id := "idA", type := "NarrativeText", text := "A1", metadata := [],
    coordinates := some [("x", 100), ("y", 200), ("width", 10), ("height", 10)],
    confidence := some (9/10) }

/-- Element at origin (120, 210), same type as `elA`. -/
def elB : DocumentElement :=
  { id := "idB", type := "NarrativeText", text := "B1", metadata := [],
    coordinates := some [("x", 120), ("y", 210), ("width", 10), ("height", 10)],
    confidence := some (19/20) }

/-- Element at origin (300, 200), same type as `elA`. -/
def elC : DocumentElement :=
  { id := "idC", type := "NarrativeText", text := "C1", metadata := [],
    coordinates := some [("x", 300), ("y", 200), ("width", 10), ("height", 10)],
    confidence := some (9/10) }

/-- Element at (100, 200) whose confidence is the Python-falsy `0.0`. -/
def elZeroConf : DocumentElement :=
  { id := "idZ", type := "NarrativeText", text := "Z1", metadata := [],
    coordinates := some [("x", 100), ("y", 200), ("width", 10), ("height", 10)],
    confidence := some 0 }

/-- Element at (120, 210), same type, confidence one half. -/
def elHalfConf : DocumentElement :=
  { id := "idH", type := "NarrativeText", text := "H1", metadata := [],
    coordinates := some [("x", 120), ("y", 210), ("width", 10), ("height", 10)],
    confidence := some (1/2) }

/-- A stored chunk document as the pipeline creates it. -/
def chunkDocC1 : BDoc :=
  [ ("id", .str "c1"), ("text", .str "hello"), ("is_edited", .boolv false)
  , ("edit_history", .arr []) ]

/-! ## Helper lemmas -/

/-- Unfolding lemma for `similarGroups` on a non-empty list. -/
theorem similarGroups_cons (e : DocumentElement) (rest : List DocumentElement) :
    similarGroups (e :: rest) =
      (e :: rest.filter (isSimilar e)) ::
        similarGroups (rest.filter (fun x => !(isSimilar e x))) := by
  rw [similarGroups]

/-- `similarGroups` of the empty list. -/
theorem similarGroups_nil : similarGroups [] = [] := by
  rw [similarGroups]

/-- On a two-element input the grouping is decided by the single
similarity test between the two elements. -/
theorem similarGroups_pair (e1 e2 : DocumentElement) :
    similarGroups [e1, e2] =
      if isSimilar e1 e2 then [[e1, e2]] else [[e1], [e2]] := by
  rw [similarGroups_cons]
  cases h : isSimilar e1 e2 <;>
    simp [List.filter, h, similarGroups_cons, similarGroups_nil]

/-- A lone element passes through the merge pass unchanged. -/
theorem merge_singleton (idS : Nat → String) (e : DocumentElement)
    (th : ℚ) : merge_similar_elements idS [e] th = .ok [e] := by
  unfold merge_similar_elements
  rw [similarGroups_cons]
  simp [similarGroups_nil, mergeGroupsGo, Except.map]

/-- A fold of `min` over a list lands on the seed or a member. -/
theorem foldl_min_mem (cs : List ℚ) : ∀ c : ℚ, cs.foldl min c ∈ c :: cs := by
  induction cs with
  | nil => intro c; simp
  | cons d ds ih =>
    intro c
    simp only [List.foldl_cons]
    rcases List.mem_cons.mp (ih (min c d)) with h1 | h1
    · rw [h1]
      rcases min_choice c d with hm | hm <;> rw [hm] <;> simp
    · simp [List.mem_cons, h1]

/-- A fold of `min` over a list bounds the seed and every member. -/
theorem foldl_min_le (cs : List ℚ) :
    ∀ c x : ℚ, x ∈ c :: cs → cs.foldl min c ≤ x := by
  induction cs with
  | nil =>
    intro c x hx
    simp only [List.mem_singleton] at hx
    simp [hx]
  | cons d ds ih =>
    intro c x hx
    simp only [List.foldl_cons]
    have hmin : List.foldl min (min c d) ds ≤ min c d :=
      ih (min c d) (min c d) (List.mem_cons_self _ _)
    rcases List.mem_cons.mp hx with heq | hx'
    · rw [heq]
      exact le_trans hmin (min_le_left _ _)
    · rcases List.mem_cons.mp hx' with heq | hx''
      · rw [heq]
        exact le_trans hmin (min_le_right _ _)
      · exact ih (min c d) x (List.mem_cons_of_mem _ hx'')

/-- Python `min` over a list returns a member that bounds all members;
it returns nothing only for the empty list. -/
theorem listMinQ_spec (l : List ℚ) :
    match listMinQ l with
    | some c => c ∈ l ∧ (l.all fun x => decide (c ≤ x)) = true
    | none => l = [] := by
  cases l with
  | nil => simp [listMinQ]
  | cons c0 cs =>
    simp only [listMinQ]
    refine ⟨foldl_min_mem cs c0, ?_⟩
    simp only [List.all_eq_true, decide_eq_true_eq]
    intro x hx
    exact foldl_min_le cs c0 x hx

/-- `listMinQ` yields nothing only on the empty list. -/
theorem listMinQ_eq_none {l : List ℚ} (h : listMinQ l = none) : l = [] := by
  cases l with
  | nil => rfl
  | cons c cs => simp [listMinQ] at h

/-- Setting a key makes it look up to the new value. -/
theorem lookup_msetKV_self (d : List (String × MVal)) (k : String) (v : MVal) :
    (msetKV d k v).lookup k = some v := by
  induction d with
  | nil => simp [msetKV, List.lookup]
  | cons p d ih =>
    by_cases h : p.1 = k
    · simpa [msetKV, List.filter_cons, h] using ih
    · have hb : (p.1 == k) = false := by simpa using h
      have hb' : (k == p.1) = false := by
        simpa using fun he => h he.symm
      simpa [msetKV, List.filter_cons, hb, List.lookup, hb'] using ih

/-- Setting one key leaves lookups of other keys unchanged. -/
theorem lookup_msetKV_ne (d : List (String × MVal)) (k : String) (v : MVal)
    (k' : String) (h : k' ≠ k) : (msetKV d k v).lookup k' = d.lookup k' := by
  induction d with
  | nil =>
    have hb : (k' == k) = false := by simpa using h
    simp [msetKV, List.lookup, hb]
  | cons p d ih =>
    by_cases hp : p.1 = k
    · have hb : (p.1 == k) = true := by simpa using hp
      have hb' : (k' == p.1) = false := by
        simpa using fun he => h (he.trans hp)
      simp [msetKV, List.filter_cons, hb, List.lookup, hb'] at ih ⊢
      exact ih
    · have hb : (p.1 == k) = false := by simpa using hp
      by_cases hk : k' = p.1
      · simp [msetKV, List.filter_cons, hb, List.lookup, hk]
      · have hb' : (k' == p.1) = false := by simpa using hk
        simp [msetKV, List.filter_cons, hb, List.lookup, hb'] at ih ⊢
        exact ih

/-- Shape of the merged element built for a group: space-joined text in
original order, `merged_from` recording the member ids, confidence the
minimum of the Python-truthy confidences; the construction raises
exactly when no truthy confidence exists. -/
theorem mergeGroup_spec (mid : String) (g : List DocumentElement) :
    match mergeGroup mid g with
    | .ok m =>
        m.text = " ".intercalate (g.map fun e => e.text)
        ∧ m.metadata.lookup "merged_from" = some (.sl (g.map fun e => e.id))
        ∧ m.confidence = listMinQ (truthyConfs g)
    | .error _ => truthyConfs g = [] := by
  cases g with
  | nil => simp [mergeGroup, truthyConfs]
  | cons a gs =>
    cases hm : listMinQ (truthyConfs (a :: gs)) with
    | none =>
      simp only [mergeGroup, hm]
      exact listMinQ_eq_none hm
    | some c =>
      simp only [mergeGroup, hm]
      refine ⟨trivial, ?_, trivial⟩
      rw [lookup_msetKV_ne _ _ _ _ (by decide), lookup_msetKV_self]

/-- `Except.map` preserves success. -/
theorem isOkE_map {α β : Type} (f : α → β) (x : Except String α) :
    isOkE (x.map f) = isOkE x := by
  cases x <;> rfl

/-- Every group produced by `similarGroups` is non-empty. -/
theorem similarGroups_ne_nil :
    ∀ (l : List DocumentElement) (g : List DocumentElement),
      g ∈ similarGroups l → g ≠ [] := by
  intro l
  induction l using similarGroups.induct with
  | case1 => simp [similarGroups_nil]
  | case2 e rest ih =>
    intro g hg
    rw [similarGroups_cons] at hg
    rcases List.mem_cons.mp hg with rfl | hg'
    · simp
    · exact ih g hg'

/-- Success of the group-processing loop is exactly: every group of two
or more elements has at least one Python-truthy confidence. -/
theorem mergeGroupsGo_isOk (idS : Nat → String) :
    ∀ (gs : List (List DocumentElement)) (k : Nat),
      (∀ g ∈ gs, g ≠ []) →
      isOkE (mergeGroupsGo idS k gs)
        = gs.all (fun g => decide (g.length ≤ 1) || !(truthyConfs g).isEmpty) := by
  intro gs
  induction gs with
  | nil => intro k _; rfl
  | cons g rest ih =>
    intro k hne
    have hg : g ≠ [] := hne g (List.mem_cons_self _ _)
    have hrest : ∀ h ∈ rest, h ≠ [] :=
      fun h hh => hne h (List.mem_cons_of_mem _ hh)
    cases g with
    | nil => exact absurd rfl hg
    | cons e gs' =>
      cases gs' with
      | nil =>
        simp [mergeGroupsGo, isOkE_map, ih k hrest]
      | cons e2 gs'' =>
        have hlen : decide ((e :: e2 :: gs'').length ≤ 1) = false := by
          simp
        have hms := mergeGroup_spec (idS k) (e :: e2 :: gs'')
        cases hmg : mergeGroup (idS k) (e :: e2 :: gs'') with
        | error msg =>
          rw [hmg] at hms
          simp [mergeGroupsGo, hmg, isOkE, hlen, hms]
        | ok m =>
          have htc : truthyConfs (e :: e2 :: gs'') ≠ [] := by
            intro hemp
            simp only [mergeGroup] at hmg
            rw [hemp] at hmg
            simp [listMinQ] at hmg
          have htc' : (truthyConfs (e :: e2 :: gs'')).isEmpty = false := by
            cases h2 : truthyConfs (e :: e2 :: gs'') with
            | nil => exact absurd h2 htc
            | cons x xs => rfl
          simp [mergeGroupsGo, hmg, isOkE_map, ih (k + 1) hrest, hlen, htc']

/-- A sum of squares of reals is non-negative. -/
theorem sumSqR_nonneg (v : List ℝ) : 0 ≤ sumSqR v := by
  induction v with
  | nil => simp [sumSqR]
  | cons x xs ih =>
    simp only [sumSqR, List.map_cons, List.sum_cons]
    have := sq_nonneg x
    simp only [sumSqR] at ih
    linarith

/-- A sum of squares of rationals is non-negative. -/
theorem sumSqQ_nonneg (v : List ℚ) : 0 ≤ sumSqQ v := by
  induction v with
  | nil => simp [sumSqQ]
  | cons x xs ih =>
    simp only [sumSqQ, List.map_cons, List.sum_cons]
    have := sq_nonneg x
    simp only [sumSqQ] at ih
    linarith

/-- Casting a rational vector preserves its sum of squares. -/
theorem sumSqR_map_cast (v : List ℚ) :
    sumSqR (v.map (Rat.cast : ℚ → ℝ)) = ((sumSqQ v : ℚ) : ℝ) := by
  induction v with
  | nil => simp [sumSqR, sumSqQ]
  | cons x xs ih =>
    simp only [sumSqR, sumSqQ, List.map_cons, List.sum_cons] at ih ⊢
    push_cast
    rw [ih]
    push_cast
    ring

/-- Dividing every component by `m` divides the sum of squares by
`m ^ 2` (also for `m = 0`, where both sides vanish). -/
theorem sumSqR_map_div (w : List ℝ) (m : ℝ) :
    sumSqR (w.map fun x => x / m) = sumSqR w / m ^ 2 := by
  induction w with
  | nil => simp [sumSqR]
  | cons x xs ih =>
    simp only [sumSqR, List.map_cons, List.sum_cons] at ih ⊢
    rw [div_pow, ih, div_add_div_same]

/-- The square of a member bounds the sum of squares from below. -/
theorem sq_mem_le_sumSqQ {x : ℚ} {v : List ℚ} (h : x ∈ v) :
    x ^ 2 ≤ sumSqQ v := by
  induction v with
  | nil => cases h
  | cons a l ih =>
    simp only [sumSqQ, List.map_cons, List.sum_cons]
    rcases List.mem_cons.mp h with heq | hmem
    · rw [heq]
      have := sumSqQ_nonneg l
      simp only [sumSqQ] at this
      linarith
    · have := ih hmem
      simp only [sumSqQ] at this
      have := sq_nonneg a
      linarith

/-- Every byte of a little-endian 32-bit encoding is below 256. -/
theorem le4_lt (x : Nat) : ∀ b ∈ le4 x, b < 256 := by
  intro b hb
  simp only [le4, List.mem_cons, List.mem_singleton, List.not_mem_nil,
    or_false] at hb
  rcases hb with h | h | h | h <;> rw [h] <;>
    exact Nat.mod_lt _ (by norm_num)

/-- Every digest byte is below 256. -/
theorem md5Bytes_lt (t : String) : ∀ b ∈ md5Bytes t, b < 256 := by
  intro b hb
  unfold md5Bytes at hb
  simp only [List.mem_append] at hb
  rcases hb with ((h | h) | h) | h <;> exact le4_lt _ b h

/-- Every hexadecimal-digest nibble is below 16. -/
theorem md5Nibbles_lt (t : String) : ∀ x ∈ md5Nibbles t, x < 16 := by
  intro x hx
  unfold md5Nibbles at hx
  simp only [List.mem_flatMap] at hx
  obtain ⟨b, hb, hxb⟩ := hx
  have hb256 := md5Bytes_lt t b hb
  simp only [List.mem_cons, List.mem_singleton, List.not_mem_nil,
    or_false] at hxb
  rcases hxb with h | h <;> rw [h]
  · exact (Nat.div_lt_iff_lt_mul (by norm_num)).mpr (by omega)
  · exact Nat.mod_lt _ (by norm_num)

/-- Indexing with a default into a list of small naturals stays small. -/
theorem getD_lt16 {l : List Nat} (h : ∀ x ∈ l, x < 16) (k : Nat) :
    l.getD k 0 < 16 := by
  cases hk : l[k]? with
  | none => simp [List.getD_eq_getElem?_getD, hk]
  | some v =>
    have hv : v ∈ l := List.getElem?_mem hk
    simp only [List.getD_eq_getElem?_getD, hk, Option.getD_some]
    exact h v hv

/-- Every provider dimensionality is at least 15. -/
theorem dimensions_ge_15 (p : String) : 15 ≤ dimensions p := by
  unfold dimensions
  split
  · norm_num
  · split
    · norm_num
    · split <;> norm_num

/-- The raw embedding has the selected dimensionality. -/
theorem rawEmbedding_length (nibs : List Nat) (dims : Nat) :
    (rawEmbedding nibs dims).length = dims := by
  simp [rawEmbedding]

/-- With all nibbles below 16 and at least 15 dimensions, the raw
embedding has a strictly negative first component, so its sum of
squares is positive and the zero-magnitude branch of the normalization
is unreachable. -/
theorem sumSqQ_rawEmbedding_pos (nibs : List Nat) (dims : Nat)
    (hn : ∀ x ∈ nibs, x < 16) (hd : 15 ≤ dims) :
    0 < sumSqQ (rawEmbedding nibs dims) := by
  have hdim0 : 0 < dims := by omega
  set f : Nat → ℚ := fun i =>
    ((nibs.getD (i % nibs.length) 0 : ℚ) + i) / (16 + dims) - 1/2 with hf
  have hmem : f 0 ∈ rawEmbedding nibs dims := by
    rw [rawEmbedding]
    exact List.mem_map_of_mem f (List.mem_range.mpr hdim0)
  have hn0 : nibs.getD (0 % nibs.length) 0 < 16 := getD_lt16 hn _
  have hneg : f 0 < 0 := by
    rw [hf]
    simp only [Nat.cast_zero, add_zero]
    have hpos : (0 : ℚ) < 16 + dims := by positivity
    rw [sub_neg, div_lt_iff₀ hpos]
    have h1 : ((nibs.getD (0 % nibs.length) 0 : ℚ)) ≤ 15 := by
      exact_mod_cast Nat.lt_succ_iff.mp hn0
    have h2 : (15 : ℚ) ≤ dims := by exact_mod_cast hd
    linarith
  have hsq : 0 < f 0 ^ 2 := pow_two_pos_of_ne_zero (ne_of_lt hneg)
  have hle : f 0 ^ 2 ≤ sumSqQ (rawEmbedding nibs dims) :=
    sq_mem_le_sumSqQ hmem
  linarith

/-- Normalization preserves vector length. -/
theorem normalizeVec_length (v : List ℚ) :
    (normalizeVec v).length = v.length := by
  unfold normalizeVec
  split <;> simp

/-- When the raw sum of squares is positive, the normalized vector has
squared L2 norm exactly 1. -/
theorem sumSqR_normalizeVec (v : List ℚ) (h : 0 < sumSqQ v) :
    sumSqR (normalizeVec v) = 1 := by
  have hw : sumSqR (v.map (Rat.cast : ℚ → ℝ)) = ((sumSqQ v : ℚ) : ℝ) :=
    sumSqR_map_cast v
  have hwpos : 0 < sumSqR (v.map (Rat.cast : ℚ → ℝ)) := by
    rw [hw]
    exact_mod_cast h
  have hmag : 0 < Real.sqrt (sumSqR (v.map (Rat.cast : ℚ → ℝ))) :=
    Real.sqrt_pos.mpr hwpos
  unfold normalizeVec
  rw [if_pos hmag, sumSqR_map_div, Real.sq_sqrt (le_of_lt hwpos)]
  exact div_self (ne_of_gt hwpos)

/-- Length of one produced embedding. -/
theorem embedding_one_length (t : String) (p : String) :
    (normalizeVec (rawEmbedding (md5Nibbles t) (dimensions p))).length
      = dimensions p := by
  rw [normalizeVec_length, rawEmbedding_length]

/-- Squared norm of one produced embedding. -/
theorem embedding_one_norm (t : String) (p : String) :
    sumSqR (normalizeVec (rawEmbedding (md5Nibbles t) (dimensions p)))
      = 1 :=
  sumSqR_normalizeVec _
    (sumSqQ_rawEmbedding_pos _ _ (md5Nibbles_lt t) (dimensions_ge_15 p))

/-- Text of a mid-loop flushed chunk. -/
theorem mkMidChunk_text (idS : Nat → String) (g : List DocumentElement)
    (n : Nat) :
    (mkMidChunk idS g n).text = " ".intercalate (g.map fun e => e.text) :=
  rfl

/-- Text of the final flushed chunk. -/
theorem mkFinalChunk_text (idS : Nat → String) (g : List DocumentElement)
    (n : Nat) :
    (mkFinalChunk idS g n).text = " ".intercalate (g.map fun e => e.text) :=
  rfl

/-- Buffer character count after appending one text. -/
theorem bufferSize_append_one (b : List String) (t : String) :
    bufferSize (b ++ [t]) = bufferSize b + t.length := by
  simp [bufferSize]

/-- The loop of the source `by_title` branch refines the spec-described
loop: starting from any flushed-chunk list and any buffer whose
character count is the tracked size, the chunk texts produced (final
flush included) are those of the spec loop on the projected input. -/
theorem byTitle_go_spec (idS : Nat → String) (size : Nat) :
    ∀ (rest : List DocumentElement) (chunks : List DocumentChunk)
      (group : List DocumentElement),
    (byTitleFinish idS (byTitleGo idS size rest chunks group
        (bufferSize (group.map fun e => e.text)))).map (fun c => c.text)
    = byTitleSpecGo size (rest.map fun e => (e.type, e.text))
        (chunks.map fun c => c.text) (group.map fun e => e.text) := by
  intro rest
  induction rest with
  | nil =>
    intro chunks group
    cases group with
    | nil => simp [byTitleGo, byTitleFinish, byTitleSpecGo]
    | cons g gs =>
      simp [byTitleGo, byTitleFinish, byTitleSpecGo, mkFinalChunk_text]
  | cons e es ih =>
    intro chunks group
    rw [byTitleGo]
    simp only [List.map_cons]
    rw [byTitleSpecGo]
    have hemp : (group.map fun e => e.text).isEmpty = group.isEmpty := by
      cases group <;> rfl
    rw [hemp]
    by_cases hcond : (e.type == "Title" && !group.isEmpty) ||
        decide (size < bufferSize (group.map fun e => e.text) + e.text.length)
    · rw [if_pos hcond, if_pos hcond]
      have step := ih (if group.isEmpty then chunks
        else chunks ++ [mkMidChunk idS group chunks.length]) [e]
      have harg : bufferSize ([e].map fun x => x.text) = e.text.length := by
        simp [bufferSize]
      rw [harg] at step
      rw [step]
      cases group with
      | nil => simp [byTitleSpecGo]
      | cons g gs => simp [byTitleSpecGo, mkMidChunk_text]
    · rw [if_neg hcond, if_neg hcond]
      have harg : bufferSize (group.map fun x => x.text) + e.text.length
          = bufferSize ((group ++ [e]).map fun x => x.text) := by
        simp [bufferSize]
      rw [harg]
      have step := ih chunks (group ++ [e])
      rw [step]
      simp

/-! ## Claim theorems -/

/-- Claim C1: `by_title` chunking accumulates elements into a buffer,
flushing exactly when a Title arrives on a non-empty buffer or the next
element would push the buffer over `chunkSize` characters, with a final
flush and chunk order equal to flush order — the produced chunk texts
coincide with the spec-described loop `byTitleSpec` for every input —
and on [Title "A", Text "B", Title "C", Text "D"] (all under the chunk
size) it yields exactly the two chunks "A B" then "C D", sourced from
the corresponding element ids. -/
theorem c1_by_title (idS : Nat → String) (elements : List DocumentElement)
    (size : Nat) :
    (create_intelligent_chunks idS elements "by_title" size false).map
        (fun c => c.text) = byTitleSpec elements size
    ∧ (create_intelligent_chunks idS [elTitleA, elTextB, elTitleC, elTextD]
        "by_title" 1000 false).map (fun c => (c.text, c.source_elements))
      = [("A B", ["a1", "b1"]), ("C D", ["c1", "d1"])] := by
  constructor
  · exact byTitle_go_spec idS size elements [] []
  · rfl

/-- Claim C5: element extraction never raises — it is a total function —
and on a failed file read (`readResult = none`) it returns a
`ProcessedDocument` holding exactly one fallback `NarrativeText` element,
with the document metadata flagging `demo_mode`. -/
theorem c5_extract_fallback (file_path : String) (strategy : String)
    (cfg : Option MetadataExtractionConfig) (rng : ExtractRng)
    (nowIso : String) :
    (extract_text_from_file_with_metadata file_path none strategy cfg rng
        nowIso).elements.map (fun e => e.type) = ["NarrativeText"]
    ∧ (extract_text_from_file_with_metadata file_path none strategy cfg rng
        nowIso).elements.length = 1
    ∧ (extract_text_from_file_with_metadata file_path none strategy cfg rng
        nowIso).metadata.lookup "demo_mode" = some (.b true) :=
  ⟨rfl, rfl, rfl⟩

/-- Claim C7 (counterexample): chunking a non-empty element list with
strategy `fixed_size` yields the empty chunk list — the claimed greedy
`fixed_size` strategy (and with it the promised non-empty output) does
not exist in `create_intelligent_chunks`. -/
theorem c7_fixed_size_counterexample :
    (create_intelligent_chunks (fun _ => "x") [elFixed] "fixed_size" 1000
        false).length = 0
    ∧ [elFixed].length = 1 :=
  ⟨rfl, rfl⟩

/-- Claim C7 (amended): `create_intelligent_chunks` implements only the
`by_title` and `by_page` strategies; with strategy `fixed_size` (for any
elements, chunk size and context-merge flag) it falls through both
branches and returns the empty chunk list. -/
theorem c7_fixed_size_amended (idS : Nat → String)
    (elements : List DocumentElement) (size : Nat) (ctx : Bool) :
    create_intelligent_chunks idS elements "fixed_size" size ctx = [] := by
  cases ctx <;> rfl

/-- Claim C6 (counterexample): the merge pass returns the element with
text "a  b" — four characters, whitespace not normalized — unchanged,
so elements whose cleaned text is under 10 characters are not dropped
and whitespace is not normalized. -/
theorem c6_short_text_counterexample :
    merge_similar_elements (fun _ => "m0") [elShort] = .ok [elShort]
    ∧ elShort.text = "a  b"
    ∧ elShort.text.length = 4 :=
  ⟨merge_singleton _ _ _, rfl, rfl⟩

/-- Claim C6 (amended): the cleaner/merger performs no whitespace
normalization and no length-based filtering — an element that merges
with no other element appears in the output unchanged, whatever its
text. -/
theorem c6_no_cleaning_amended (idS : Nat → String) (e : DocumentElement) :
    merge_similar_elements idS [e] = .ok [e] :=
  merge_singleton idS e _

/-- Claim C2: the embedding encoder is a pure Lean function of text and
provider (so identical inputs yield identical vectors by construction);
it returns one vector per text, each of the provider-selected length —
1536 for openai, 1024 for bedrock, 384 for sentence_transformers, 768
for any other provider — and each with L2 norm exactly 1 (hence within
1e-6 of 1.0). -/
theorem c2_embedding_encoder (texts : List String) (model_type : String) :
    (generate_embeddings texts model_type).length = texts.length
    ∧ (generate_embeddings texts model_type).map List.length
        = texts.map (fun _ => dimensions model_type)
    ∧ (generate_embeddings texts model_type).map sumSqR
        = texts.map (fun _ => 1)
    ∧ (generate_embeddings texts model_type).map
        (fun v => Real.sqrt (sumSqR v)) = texts.map (fun _ => 1)
    ∧ dimensions "openai" = 1536
    ∧ dimensions "bedrock" = 1024
    ∧ dimensions "sentence_transformers" = 384
    ∧ (∀ p : String, p ≠ "openai" → p ≠ "bedrock" →
        p ≠ "sentence_transformers" → dimensions p = 768) := by
  refine ⟨by simp [generate_embeddings], ?_, ?_, ?_, rfl, rfl, rfl, ?_⟩
  · simp only [generate_embeddings, List.map_map]
    congr 1
    funext t
    simp [Function.comp, embedding_one_length]
  · simp only [generate_embeddings, List.map_map]
    congr 1
    funext t
    simp [Function.comp, embedding_one_norm]
  · simp only [generate_embeddings, List.map_map]
    congr 1
    funext t
    simp [Function.comp, embedding_one_norm, Real.sqrt_one]
  · intro p h1 h2 h3
    simp [dimensions, h1, h2, h3]

/-- Witness for C2: the default branch applies to a provider name that
is none of the three recognized ones. -/
theorem c2_embedding_encoder_witness : dimensions "custom_provider" = 768 :=
  (c2_embedding_encoder [] "openai").2.2.2.2.2.2.2 "custom_provider"
    (by decide) (by decide) (by decide)

/-- Claim C3: over every run of the orchestrator — the success path and
every point at which a stage exception can interrupt it — the progress
values carried by the execution record never decrease, and whenever the
record's status is `completed` its progress is exactly 100. -/
theorem c3_progress_monotone (outcome : Option (Fin 5)) (results : MVal)
    (completedAt : String) (msg : String) :
    nondecreasing ((execTrace outcome results completedAt msg).map
        (fun r => r.progress)) = true
    ∧ ((execTrace outcome results completedAt msg).all
        (fun r => !(r.status == ExecStatus.completed) ||
          (r.progress == 100))) = true := by
  rcases outcome with _ | k
  · constructor <;> rfl
  · fin_cases k <;> exact ⟨rfl, rfl⟩

/-- Claim C4: whenever a stage exception interrupts the run — at any of
the five possible points — the final execution record has status
`failed`, carries the exception's message verbatim as `error_message`,
has a completion timestamp stamped, and has no results persisted. -/
theorem c4_failure_discards_results (k : Fin 5) (results : MVal)
    (completedAt : String) (msg : String) :
    (finalExecRecord (some k) results completedAt msg).status = .failed
    ∧ (finalExecRecord (some k) results completedAt msg).error_message
        = some msg
    ∧ (finalExecRecord (some k) results completedAt msg).completed_at
        = some completedAt
    ∧ (finalExecRecord (some k) results completedAt msg).results = none := by
  fin_cases k <;> exact ⟨rfl, rfl, rfl, rfl⟩

/-- Claim C8 (counterexample): two same-type elements at (100,200) and
(120,210) with confidences 0.0 and 0.5 merge, but the merged confidence
is 0.5 — not the minimum 0.0 across the merged set — because the source
filters confidences for Python truthiness before taking the minimum. -/
theorem c8_zero_confidence_counterexample :
    (merge_similar_elements (fun _ => "m") [elZeroConf, elHalfConf]).map
        (fun l => l.map fun e => e.confidence) = .ok [some (1/2)]
    ∧ listMinQ [(0 : ℚ), 1/2] = some 0
    ∧ elZeroConf.confidence = some 0
    ∧ elHalfConf.confidence = some (1/2)
    ∧ decide ((1/2 : ℚ) = 0) = false := by
  refine ⟨?_, by norm_num [listMinQ], rfl, rfl, by norm_num⟩
  have hyx : ("y" == "x") = false := rfl
  have hsim : isSimilar elZeroConf elHalfConf = true := by
    norm_num [isSimilar, coordGet, coordsTruthy, List.lookup, hyx,
      elZeroConf, elHalfConf]
  unfold merge_similar_elements
  rw [similarGroups_pair, hsim]
  norm_num [mergeGroupsGo, mergeGroup, truthyConfs, listMinQ,
    elZeroConf, elHalfConf, msetKV, Except.map, List.filterMap,
    List.filter, List.lookup]

/-- Claim C8 (amended): on a two-element input the elements merge
exactly when they share a type tag, both carry non-empty coordinate
dicts and their origins differ by less than 50 in x and 30 in y (in
general the comparison is made against the anchor element of a group);
the merged text is the space-joined concatenation in original order,
the metadata records the merged-from id list, and the merged confidence
is the minimum across the members' confidences that are present and
non-zero (raising when no such confidence exists).  Equal-type elements
at (100,200) and (120,210) merge into one element while (100,200) and
(300,200) pass through unmerged. -/
theorem c8_merge_criteria_amended (i : Nat → String) (mid : String)
    (e1 e2 : DocumentElement) (g : List DocumentElement) :
    (similarGroups [e1, e2]
        = if isSimilar e1 e2 then [[e1, e2]] else [[e1], [e2]])
    ∧ (match mergeGroup mid g with
       | .ok m =>
           m.text = " ".intercalate (g.map fun e => e.text)
           ∧ m.metadata.lookup "merged_from"
               = some (.sl (g.map fun e => e.id))
           ∧ m.confidence = listMinQ (truthyConfs g)
       | .error _ => truthyConfs g = [])
    ∧ (match listMinQ (truthyConfs g) with
       | some c => c ∈ truthyConfs g
           ∧ ((truthyConfs g).all fun x => decide (c ≤ x)) = true
       | none => truthyConfs g = [])
    ∧ isSimilar elA elB = true
    ∧ isSimilar elA elC = false
    ∧ (merge_similar_elements i [elA, elB]).map
        (fun l => l.map fun e =>
          (e.text, e.confidence, e.metadata.lookup "merged_from"))
      = .ok [("A1 B1", some (9/10), some (.sl ["idA", "idB"]))]
    ∧ merge_similar_elements i [elA, elC] = .ok [elA, elC] := by
  have hyx : ("y" == "x") = false := rfl
  have hAB : isSimilar elA elB = true := by
    norm_num [isSimilar, coordGet, coordsTruthy, List.lookup, hyx, elA, elB]
  have hAC : isSimilar elA elC = false := by
    norm_num [isSimilar, coordGet, coordsTruthy, List.lookup, hyx, elA, elC]
  refine ⟨similarGroups_pair e1 e2, mergeGroup_spec mid g,
    listMinQ_spec (truthyConfs g), hAB, hAC, ?_, ?_⟩
  · unfold merge_similar_elements
    rw [similarGroups_pair, hAB]
    norm_num [mergeGroupsGo, mergeGroup, truthyConfs, listMinQ,
      elA, elB, msetKV, Except.map, List.filterMap, List.filter,
      List.lookup]
    rfl
  · unfold merge_similar_elements
    rw [similarGroups_pair, hAC]
    simp [mergeGroupsGo, Except.map]

/-- Claim C10: the merge pass completes without raising exactly when
every merged group (two or more elements) contains an element whose
confidence is neither `None` nor `0.0`; under that precondition the
empty-list `min` error branch is unreachable, and without it the pass
raises. -/
theorem c10_merge_confidence_safety (idS : Nat → String)
    (elements : List DocumentElement) (th : ℚ) :
    isOkE (merge_similar_elements idS elements th)
      = (similarGroups elements).all
          (fun g => decide (g.length ≤ 1) || !(truthyConfs g).isEmpty) :=
  mergeGroupsGo_isOk idS (similarGroups elements) 0
    (similarGroups_ne_nil elements)

/-- Claim C9 (code evaluation at the failing input): editing an
existing chunk through `edit_chunk` fails — the `$push` of the history
entry is nested inside the `$set` document, MongoDB rejects the
dollar-prefixed field name, and the handler turns this into a 500
error — so after two edit attempts the stored chunk still has its
original text and an empty `edit_history`; no entry is ever appended. -/
theorem c9_edit_chunk_bug :
    (edit_chunk [chunkDocC1] "c1" "hello v2" (some "fix") "t1").1
      = .error "500 Error editing chunk: dollar-prefixed field name in $set"
    ∧ (edit_chunk [chunkDocC1] "c1" "hello v2" (some "fix") "t1").2
      = [chunkDocC1]
    ∧ (edit_chunk
        (edit_chunk [chunkDocC1] "c1" "hello v2" (some "fix") "t1").2
        "c1" "hello v3" (some "fix again") "t2").2 = [chunkDocC1]
    ∧ chunkDocC1.lookup "edit_history" = some (.arr [])
    ∧ chunkDocC1.lookup "text" = some (.str "hello") :=
  ⟨rfl, rfl, rfl, rfl, rfl⟩

end Server
